import Mathlib

/-!
Verification of the audio-authentication watermark core
(`backend/watermark/embed.py`, `extract.py`, `keypairs.py`, `registry.py`).

Shallow embedding conventions:
* Python byte strings (identities, secrets, signatures, PEM keys, hashes)
  are modelled as `List Nat` (their byte sequences).
* Audio samples (numpy float64 arrays) are modelled as `List ℚ` under exact
  arithmetic; the one non-finite phenomenon the code can produce — the
  all-NaN signal arising from normalizing a silent input (`0/0`) — is
  modelled explicitly with `Option` (`none` = NaN-filled signal).
* `hashlib.sha256(...).hexdigest()` read with `int(_, 16)` is the digest as
  a big-endian unsigned integer; `sha256` below implements FIPS 180-4 over
  byte lists and returns exactly that integer.
* `np.random.default_rng(seed).standard_normal(n)` is a deterministic pure
  function of `(seed, n)` (numpy pins PCG64 and the ziggurat transform);
  it is modelled by an explicit function parameter `g : Nat → Nat → List ℚ`.
* `np.corrcoef(y, p)[0, 1]` is a float (hence rational) or NaN; it is
  modelled by a function parameter `f : List ℚ → List ℚ → Option ℚ`
  (`none` = NaN).  Where a claim depends on the numeric semantics of the
  Pearson coefficient, the hypothesis `CorrcoefAt` pins the value of `f` at the
  evaluated pair to the exact mathematical Pearson coefficient.
-/

namespace AudioAuth

/-! ### SHA-256 (FIPS 180-4), over byte lists, digest as big-endian `Nat` -/

namespace SHA256

/-- The word modulus `2^32`. -/
def M32 : Nat := 4294967296

/-- Right-rotation of a 32-bit word. -/
def rotr (n x : Nat) : Nat := ((x >>> n) ||| (x <<< (32 - n))) % M32

/-- Logical right shift. -/
def shr (n x : Nat) : Nat := x >>> n

/-- Addition modulo `2^32`. -/
def add32 (a b : Nat) : Nat := (a + b) % M32

/-- Bitwise complement of a 32-bit word. -/
def not32 (x : Nat) : Nat := x ^^^ (M32 - 1)

def bigSigma0 (x : Nat) : Nat := (rotr 2 x) ^^^ (rotr 13 x) ^^^ (rotr 22 x)

def bigSigma1 (x : Nat) : Nat := (rotr 6 x) ^^^ (rotr 11 x) ^^^ (rotr 25 x)

def smallSigma0 (x : Nat) : Nat := (rotr 7 x) ^^^ (rotr 18 x) ^^^ (shr 3 x)

def smallSigma1 (x : Nat) : Nat := (rotr 17 x) ^^^ (rotr 19 x) ^^^ (shr 10 x)

def ch (x y z : Nat) : Nat := (x &&& y) ^^^ ((not32 x) &&& z)

def maj (x y z : Nat) : Nat := (x &&& y) ^^^ (x &&& z) ^^^ (y &&& z)

/-- The 64 round constants (FIPS 180-4 section 4.2.2, in decimal). -/
def K : List Nat :=
  [1116352408, 1899447441, 3049323471, 3921009573, 961987163,
   1508970993, 2453635748, 2870763221, 3624381080, 310598401,
   607225278, 1426881987, 1925078388, 2162078206, 2614888103,
   3248222580, 3835390401, 4022224774, 264347078, 604807628,
   770255983, 1249150122, 1555081692, 1996064986, 2554220882,
   2821834349, 2952996808, 3210313671, 3336571891, 3584528711,
   113926993, 338241895, 666307205, 773529912, 1294757372,
   1396182291, 1695183700, 1986661051, 2177026350, 2456956037,
   2730485921, 2820302411, 3259730800, 3345764771, 3516065817,
   3600352804, 4094571909, 275423344, 430227734, 506948616,
   659060556, 883997877, 958139571, 1322822218, 1537002063,
   1747873779, 1955562222, 2024104815, 2227730452, 2361852424,
   2428436474, 2756734187, 3204031479, 3329325298]

/-- Working registers of the compression function. -/
structure Regs where
  a : Nat
  b : Nat
  c : Nat
  d : Nat
  e : Nat
  f : Nat
  g : Nat
  h : Nat

/-- Initial hash value (FIPS 180-4 section 5.3.3, in decimal). -/
def initRegs : Regs :=
  ⟨1779033703, 3144134277, 1013904242, 2773480762,
   1359893119, 2600822924, 528734635, 1541459225⟩

/-- Message padding: `0x80`, zeros to 56 mod 64, then the bit length as
    eight big-endian bytes. -/
def padMessage (m : List Nat) : List Nat :=
  let L := m.length
  let z := (119 - (L % 64)) % 64
  m ++ [0x80] ++ List.replicate z 0 ++
    (List.range 8).map (fun i => ((8 * L) >>> (56 - 8 * i)) % 256)

/-- Big-endian 32-bit words from bytes. -/
def toWords : List Nat → List Nat
  | a :: b :: c :: d :: rest => (((a * 256 + b) * 256 + c) * 256 + d) :: toWords rest
  | _ => []

/-- Split a word list into 16-word blocks (padding guarantees the length
    is a multiple of 16; a ragged tail is kept as a final short block). -/
def toBlocks : List Nat → List (List Nat)
  | [] => []
  | w0 :: w1 :: w2 :: w3 :: w4 :: w5 :: w6 :: w7 ::
    w8 :: w9 :: w10 :: w11 :: w12 :: w13 :: w14 :: w15 :: rest =>
    [w0, w1, w2, w3, w4, w5, w6, w7, w8, w9, w10, w11, w12, w13, w14, w15]
      :: toBlocks rest
  | ws => [ws]

/-- Identity on `Nat` in continuation form; the `match` drives call-by-name
    reduction to a numeral before the continuation runs, which keeps the
    reduction stack of concrete `sha256` computations shallow. -/
def seqNat {α : Type} (n : Nat) (k : Nat → α) : α :=
  match n with
  | 0 => k 0
  | Nat.succ m => k (Nat.succ m)

/-- Message-schedule extension, on the reversed word list (most recent
    word first): each step prepends
    `σ₁(w[t−2]) + w[t−7] + σ₀(w[t−15]) + w[t−16]`. -/
def extendRevLoop : Nat → List Nat → List Nat
  | 0, w => w
  | k + 1, w =>
    seqNat (add32 (add32 (smallSigma1 (w.getD 1 0)) (w.getD 6 0))
                  (add32 (smallSigma0 (w.getD 14 0)) (w.getD 15 0)))
      (fun x => extendRevLoop k (x :: w))

/-- The 64-word message schedule of a 16-word block. -/
def schedule (block : List Nat) : List Nat :=
  (extendRevLoop 48 block.reverse).reverse

/-- One compression round. -/
def round (ks ws : Nat) (r : Regs) : Regs :=
  let T1 := add32 r.h (add32 (bigSigma1 r.e) (add32 (ch r.e r.f r.g) (add32 ks ws)))
  let T2 := add32 (bigSigma0 r.a) (maj r.a r.b r.c)
  ⟨add32 T1 T2, r.a, r.b, r.c, add32 r.d T1, r.e, r.f, r.g⟩

/-- Identity on `Regs` in continuation form, forcing all eight registers to
    numerals (see `seqNat`). -/
def seqRegs {α : Type} (r : Regs) (k : Regs → α) : α :=
  match r with
  | ⟨a, b, c, d, e, f, g, h⟩ =>
    seqNat a fun a => seqNat b fun b => seqNat c fun c => seqNat d fun d =>
    seqNat e fun e => seqNat f fun f => seqNat g fun g => seqNat h fun h =>
    k ⟨a, b, c, d, e, f, g, h⟩

/-- The 64 compression rounds. -/
def compressLoop : List Nat → List Nat → Regs → Regs
  | k :: ks, w :: ws, r => seqRegs (round k w r) (compressLoop ks ws)
  | _, _, r => r

/-- Process a 16-word block. -/
def processBlock (r : Regs) (block : List Nat) : Regs :=
  let t := compressLoop K (schedule block) r
  ⟨add32 r.a t.a, add32 r.b t.b, add32 r.c t.c, add32 r.d t.d,
   add32 r.e t.e, add32 r.f t.f, add32 r.g t.g, add32 r.h t.h⟩

/-- SHA-256 digest of a byte list, as the big-endian 256-bit unsigned
    integer (the value of `int(hashlib.sha256(m).hexdigest(), 16)`). -/
def sha256 (m : List Nat) : Nat :=
  let fin := (toBlocks (toWords (padMessage m))).foldl processBlock initRegs
  ((((((fin.a * M32 + fin.b) * M32 + fin.c) * M32 + fin.d) * M32 + fin.e) * M32
      + fin.f) * M32 + fin.g) * M32 + fin.h

end SHA256

/-! ### Watermark core (`embed.py`, `extract.py`)

A `Rng` is the model of `np.random.default_rng(seed).standard_normal(n)`:
a pure function of the 32-bit seed and the requested length.  A `Corrcoef`
is the model of `np.corrcoef(a, b)[0, 1]`: the float correlation value
(`none` = NaN). -/

/-- Model of `np.random.default_rng(seed).standard_normal(n)`. -/
abbrev Rng : Type := Nat → Nat → List ℚ

/-- Model of `np.corrcoef(a, b)[0, 1]` (`none` = NaN). -/
abbrev Corrcoef : Type := List ℚ → List ℚ → Option ℚ

/-- Model of `verify_watermark_signature(artist_id, audio_hash, signature,
    public_key_pem)` as used by `detect_watermark_with_signature`
    (RSA-PSS verification, a pure boolean function of its inputs). -/
abbrev Verifier : Type := List Nat → List Nat → List Nat → List Nat → Bool

/-- Value of `int(hashlib.sha256(material).hexdigest(), 16) % 2**32` —
    the 32-bit RNG seed derived from the seed material
    (embed.py line 29/69, extract.py line 28/96/99). -/
def seedOf (material : List Nat) : Nat :=
  SHA256.sha256 material % 2 ^ 32

/-- The fixed mixing gain `alpha = 0.001` (embed.py lines 34, 74). -/
def alpha : ℚ := 1 / 1000

/-- The fixed detection threshold `0.001` (extract.py lines 41, 113). -/
def threshold : ℚ := 1 / 1000

/-- Value of `np.max(np.abs(y))` (the peak amplitude; `0` for the empty list). -/
def maxAbs (y : List ℚ) : ℚ := (y.map (fun a => |a|)).foldr max 0

/-- Value of `y / np.max(np.abs(y))` for a non-silent signal (embed.py line 26,
    extract.py line 25).  For a silent signal the Python expression is a
    `0/0` NaN-filled array; callers below branch on `maxAbs y = 0` and
    represent that case explicitly instead of calling `normalizeQ`. -/
def normalizeQ (y : List ℚ) : List ℚ := y.map (fun a => a / maxAbs y)

/-- The pattern generation of `embed_watermark` (embed.py lines 29–31):
    seed from SHA-256 of `id_str + secret`, then `n` standard-normal
    draws. -/
def embedPattern (g : Rng) (id secret : List Nat) (n : Nat) : List ℚ :=
  g (seedOf (id ++ secret)) n

/-- The pattern generation of `detect_watermark` (extract.py lines 28–30):
    seed from SHA-256 of `id_str + secret`, then `n` standard-normal
    draws. -/
def detectPattern (g : Rng) (id secret : List Nat) (n : Nat) : List ℚ :=
  g (seedOf (id ++ secret)) n

/-- The watermarked samples produced by `embed_watermark` on a non-silent
    input: `y_marked = y_normalized + alpha * pattern`
    (embed.py line 35). -/
def embedSome (g : Rng) (y : List ℚ) (id secret : List Nat) : List ℚ :=
  List.zipWith (fun a b => a + alpha * b) (normalizeQ y)
    (embedPattern g id secret y.length)

/-- Translation of `embed_watermark(input, output, id_str, secret)` (embed.py lines 9–40),
    as a function from the loaded samples to the samples written out.
    `none` models the silent-input case, where `y / np.max(np.abs(y))` is
    `0/0` for every sample and the file written is NaN-filled — the Python
    raises no error. -/
def embed_watermark (g : Rng) (y : List ℚ) (id secret : List Nat) :
    Option (List ℚ) :=
  if maxAbs y = 0 then none else some (embedSome g y id secret)

/-- Translation of `detect_watermark(audio_path, id_str, secret)` (extract.py lines 9–44):
    normalize, regenerate the pattern, Pearson-correlate, map NaN to `0.0`,
    compare with the threshold.  Returns `(verified, corr)`.  A silent
    candidate normalizes to an all-NaN array, so `np.corrcoef` yields NaN
    and the correlation is taken as `0`; this is the `maxAbs y = 0`
    branch of `corr` below. -/
def detect_watermark (f : Corrcoef) (g : Rng) (y : List ℚ)
    (id secret : List Nat) : Bool × ℚ :=
  let corr : ℚ :=
    if maxAbs y = 0 then 0
    else (f (normalizeQ y) (detectPattern g id secret y.length)).getD 0
  (decide (corr > threshold), corr)

/-- The metadata sidecar written by `embed_watermark_with_signature`
    (embed.py lines 81–86) and read back by
    `detect_watermark_with_signature` (extract.py lines 72–79). -/
structure ProvenanceRecord where
  artist_id : List Nat
  signature : List Nat
  audio_hash : List Nat
  watermark_type : List Nat

/-- The UTF-8 bytes of `"cryptographic"`. -/
def cryptoKind : List Nat :=
  [0x63, 0x72, 0x79, 0x70, 0x74, 0x6f, 0x67, 0x72, 0x61, 0x70, 0x68, 0x69,
   0x63]

/-- The UTF-8 bytes of `"fallback"`. -/
def fallbackBytes : List Nat := [0x66, 0x61, 0x6c, 0x6c, 0x62, 0x61, 0x63, 0x6b]

/-- The UTF-8 bytes of `":"`. -/
def colonByte : List Nat := [0x3a]

/-- The 64 lowercase hex characters of `hashlib.sha256(_).hexdigest()`, as
    bytes, for a digest value `d < 2^256`. -/
def hexDigitByte (n : Nat) : Nat := if n < 10 then 48 + n else 87 + n

/-- Byte list of the 64-character lowercase hex digest string. -/
def hexBytes (d : Nat) : List Nat :=
  (List.range 64).map (fun i => hexDigitByte ((d >>> (4 * (63 - i))) % 16))

/-- Translation of `embed_watermark_with_signature`
    (embed.py lines 43–92), as a function from the loaded samples to the
    samples written out together with the metadata sidecar.  `signF`
    models `create_watermark_signature` (RSA-PSS signing of
    `f"{artist_id}:{audio_hash}"`; non-deterministic salt is irrelevant to
    the data flow, so it is passed in as a function of the three
    arguments); `tobytes` models `ndarray.tobytes()` (the float64 byte
    serialization of the normalized samples).  `none` is the silent-input
    NaN case, exactly as in `embed_watermark`. -/
def embed_watermark_with_signature (g : Rng)
    (signF : List Nat → List Nat → List Nat → List Nat)
    (tobytes : List ℚ → List Nat) (y : List ℚ) (id priv : List Nat) :
    Option (List ℚ × ProvenanceRecord) :=
  if maxAbs y = 0 then none
  else
    let yn := normalizeQ y
    let audio_hash := hexBytes (SHA256.sha256 (tobytes yn))
    let signature := signF id audio_hash priv
    let pattern := g (seedOf (id ++ signature)) y.length
    let y_marked := List.zipWith (fun a b => a + alpha * b) yn pattern
    some (y_marked, ⟨id, signature, audio_hash, cryptoKind⟩)

/-- Result triple of `detect_watermark_with_signature`
    (extract.py line 122). -/
structure SignedDetectResult where
  verified : Bool
  score : ℚ
  signature_valid : Bool
deriving DecidableEq

/-- Translation of `detect_watermark_with_signature(audio_path, id_str, public_key_pem)`
    (extract.py lines 47–122).  `rec?` models the metadata-sidecar lookup:
    `none` covers both a missing `_metadata.json` file and an unreadable
    one (the `except` branch at lines 89–91 — in both cases
    `signature_valid` stays `False`, so the later
    `signature_valid and "signature" in metadata` test short-circuits and
    the metadata content is never used).  `vF` models
    `verify_watermark_signature`. -/
def detect_watermark_with_signature (f : Corrcoef) (g : Rng) (vF : Verifier)
    (y : List ℚ) (id pub : List Nat) (rec? : Option ProvenanceRecord) :
    SignedDetectResult :=
  let svScore : Bool × ℚ :=
    match rec? with
    | none => (false, 0)
    | some r =>
      if r.watermark_type = cryptoKind then
        let v := vF id r.audio_hash r.signature pub
        (v, if v then 1 else 0)
      else (false, 0)
  let signature_valid := svScore.1
  let signature_score := svScore.2
  let seed : Nat :=
    match rec? with
    | some r =>
      if signature_valid then seedOf (id ++ r.signature)
      else seedOf (id ++ fallbackBytes)
    | none => seedOf (id ++ fallbackBytes)
  let corr : ℚ :=
    if maxAbs y = 0 then 0
    else (f (normalizeQ y) (g seed y.length)).getD 0
  ⟨signature_valid && decide (corr > threshold),
   (corr + signature_score) / 2, signature_valid⟩

/-! ### Pearson-correlation semantics

For same-length lists, `np.corrcoef(a, b)[0, 1]` is
`S a b / sqrt (S a a * S b b)` with
`S a b = n * Σ (aᵢ bᵢ) − (Σ aᵢ) (Σ bᵢ)`, NaN when a variance vanishes.
`CorrcoefAt f a b` pins an abstract `Corrcoef` to this value at the single
pair `(a, b)`: NaN exactly when `S a a * S b b = 0`, and otherwise a value
`c` with the sign of `S a b` whose square is `(S a b)² / (S a a * S b b)`
(these two conditions determine `c` uniquely). -/

/-- Sum `Σ aᵢ bᵢ` over two lists. -/
def dotL (a b : List ℚ) : ℚ := (List.zipWith (· * ·) a b).sum

/-- Scaled covariance sum: `n * Σ aᵢ bᵢ − (Σ aᵢ)(Σ bᵢ)`.  the Pearson
    coefficient is `S a b / sqrt (S a a * S b b)`. -/
def S (a b : List ℚ) : ℚ := (a.length : ℚ) * dotL a b - a.sum * b.sum

/-- Statement that `f` agrees with `np.corrcoef(a, b)[0, 1]` at the pair `(a, b)`. -/
def CorrcoefAt (f : Corrcoef) (a b : List ℚ) : Prop :=
  (S a a * S b b = 0 → f a b = none) ∧
  (S a a * S b b ≠ 0 →
    ∃ c, f a b = some c ∧ 0 ≤ c * S a b ∧
      c ^ 2 * (S a a * S b b) = (S a b) ^ 2)

/-! ### Signature service (`keypairs.py`)

The three fallible `cryptography`-library primitives inside
`AudioKeyPair.verify_signature` are modelled as parameters returning
`Except Unit _` (`.error` = the primitive raised):
`loadPub` = `serialization.load_pem_public_key`,
`b64dec` = `base64.b64decode`,
`rsaVerify` = `public_key.verify(...)` with PSS/SHA-256 parameters (raises
`InvalidSignature` on mismatch). -/

/-- Translation of `AudioKeyPair.verify_signature` (keypairs.py lines 88–128): the whole
    body is wrapped in `try: ... except Exception: return False`.  The
    instance state (`self`) is never read, so it is not a parameter. -/
def verify_signature (loadPub : List Nat → Except Unit (List Nat))
    (b64dec : List Nat → Except Unit (List Nat))
    (rsaVerify : List Nat → List Nat → List Nat → Except Unit Unit)
    (artist_id watermark_data signature public_key_pem : List Nat) : Bool :=
  match loadPub public_key_pem with
  | .error _ => false
  | .ok public_key =>
    match b64dec signature with
    | .error _ => false
    | .ok signature_bytes =>
      let message := artist_id ++ colonByte ++ watermark_data
      match rsaVerify public_key signature_bytes message with
      | .error _ => false
      | .ok _ => true

/-- Translation of `verify_watermark_signature` (keypairs.py lines 175–189): constructs a
    fresh `AudioKeyPair` and delegates to its `verify_signature`. -/
def verify_watermark_signature (loadPub : List Nat → Except Unit (List Nat))
    (b64dec : List Nat → Except Unit (List Nat))
    (rsaVerify : List Nat → List Nat → List Nat → Except Unit Unit)
    (artist_id audio_hash signature public_key_pem : List Nat) : Bool :=
  verify_signature loadPub b64dec rsaVerify artist_id audio_hash signature
    public_key_pem

/-! ### Key registry (`registry.py`) -/

/-- One entry of `registry.json` (registry.py lines 53–60). -/
structure ArtistInfo where
  public_key : List Nat
  artist_name : List Nat
  contact_info : List Nat
  description : List Nat
  registered_at : List Nat
  last_updated : List Nat
deriving DecidableEq

/-- The in-memory registry dict, as an association list keyed by
    `artist_id` (insertion preserves existing bindings; a fresh key is
    appended, matching Python dict insertion order). -/
abbrev Registry : Type := List (List Nat × ArtistInfo)

/-- Python `x or default` on an optional string: `None` and the empty
    string are falsy. -/
def pyOr (x : Option (List Nat)) (default : List Nat) : List Nat :=
  match x with
  | none => default
  | some s => if s = [] then default else s

/-- Translation of `KeyRegistry.register_artist` (registry.py lines 33–63).  `now` models
    `datetime.now().isoformat()`.  Returns the boolean result and the
    registry contents afterwards (the method mutates `self.registry` and
    saves it only on the success path). -/
def register_artist (reg : Registry) (artist_id public_key : List Nat)
    (artist_name contact_info description : Option (List Nat))
    (now : List Nat) : Bool × Registry :=
  if (reg.lookup artist_id).isSome then (false, reg)
  else
    (true,
     reg ++ [(artist_id,
       ⟨public_key, pyOr artist_name artist_id, pyOr contact_info [],
        pyOr description [], now, now⟩)])

/-! ### Spec-side definitions (for refinement claims)

These definitions transcribe the wording of the SPECIFICATION (spec.md §4.1 and
§4.4), to be compared with the source-derived definitions above. -/

/-- Spec §4.1, transcribed: compute a 256-bit hash of the concatenation
    `identity + keyMaterial`; interpret the hash as an unsigned integer and
    reduce it modulo `2^32` to obtain a 32-bit seed; initialize the
    pseudo-random bit generator with that seed; draw `length` samples from
    a standard normal distribution. -/
def patternSpec (g : Rng) (identity keyMaterial : List Nat) (length : Nat) :
    List ℚ :=
  g (SHA256.sha256 (identity ++ keyMaterial) % 2 ^ 32) length

/-- Spec §4.4 step 1, transcribed: `signatureValid` is the signature
    verdict of the signature service on the stored fingerprint and signature, and
    `false` when there is no record or the record is not of the
    cryptographic kind. -/
def svSpec (vF : Verifier) (id pub : List Nat)
    (rec? : Option ProvenanceRecord) : Bool :=
  match rec? with
  | none => false
  | some r =>
    if r.watermark_type = cryptoKind then vF id r.audio_hash r.signature pub
    else false

/-- Spec §4.4 step 2, transcribed: pattern seed material is
    `identity + record.signature` when `signatureValid`, else the fixed
    fallback constant `identity + "fallback"`. -/
def seedSpec (vF : Verifier) (id pub : List Nat)
    (rec? : Option ProvenanceRecord) : Nat :=
  match rec? with
  | some r =>
    if svSpec vF id pub rec? then seedOf (id ++ r.signature)
    else seedOf (id ++ fallbackBytes)
  | none => seedOf (id ++ fallbackBytes)

/-- Spec §4.4 step 3, transcribed: the correlation between the normalized
    candidate and the pattern regenerated from the step-2 seed, with an
    undefined (NaN) correlation taken as exactly `0` — including the silent
    candidate, whose normalization is all-NaN. -/
def corrSpec (f : Corrcoef) (g : Rng) (vF : Verifier) (y : List ℚ)
    (id pub : List Nat) (rec? : Option ProvenanceRecord) : ℚ :=
  if maxAbs y = 0 then 0
  else (f (normalizeQ y) (g (seedSpec vF id pub rec?) y.length)).getD 0

/-! ### Lemmas: list statistics -/

theorem sum_map_mul (l : List ℚ) (r : ℚ) :
    (l.map (fun x => x * r)).sum = l.sum * r := by
  induction l with
  | nil => simp
  | cons x t ih => simp [ih, add_mul]

theorem zipWith_mul_map_left (r : ℚ) :
    ∀ (a b : List ℚ),
      List.zipWith (· * ·) (a.map (fun x => x * r)) b =
        (List.zipWith (· * ·) a b).map (fun x => x * r)
  | [], _ => by simp
  | _ :: _, [] => by simp
  | x :: a, y :: b => by
    simp only [List.map_cons, List.zipWith_cons_cons]
    rw [zipWith_mul_map_left r a b]
    congr 1
    ring

theorem zipWith_mul_map_right (r : ℚ) :
    ∀ (a b : List ℚ),
      List.zipWith (· * ·) a (b.map (fun x => x * r)) =
        (List.zipWith (· * ·) a b).map (fun x => x * r)
  | [], _ => by simp
  | _ :: _, [] => by simp
  | x :: a, y :: b => by
    simp only [List.map_cons, List.zipWith_cons_cons]
    rw [zipWith_mul_map_right r a b]
    congr 1
    ring

theorem dotL_map_left (r : ℚ) (a b : List ℚ) :
    dotL (a.map (fun x => x * r)) b = dotL a b * r := by
  rw [dotL, dotL, zipWith_mul_map_left, sum_map_mul]

theorem dotL_map_right (r : ℚ) (a b : List ℚ) :
    dotL a (b.map (fun x => x * r)) = dotL a b * r := by
  rw [dotL, dotL, zipWith_mul_map_right, sum_map_mul]

theorem S_map_mul_left (r : ℚ) (a b : List ℚ) :
    S (a.map (fun x => x * r)) b = S a b * r := by
  simp only [S, List.length_map, dotL_map_left, sum_map_mul]
  ring

theorem S_map_mul_both (r : ℚ) (a b : List ℚ) :
    S (a.map (fun x => x * r)) (b.map (fun x => x * r)) = S a b * r * r := by
  simp only [S, List.length_map, dotL_map_left, dotL_map_right, sum_map_mul]
  ring

theorem sum_zipWith_axpy (c : ℚ) :
    ∀ (a b : List ℚ), a.length = b.length →
      (List.zipWith (fun x y => x + c * y) a b).sum = a.sum + c * b.sum
  | [], [], _ => by simp
  | [], _ :: _, h => by simp at h
  | _ :: _, [], h => by simp at h
  | x :: a, y :: b, h => by
    simp only [List.length_cons, Nat.succ.injEq] at h
    simp only [List.zipWith_cons_cons, List.sum_cons]
    rw [sum_zipWith_axpy c a b h]
    ring

theorem dotL_axpy_right (c : ℚ) :
    ∀ (a b : List ℚ), a.length = b.length →
      dotL (List.zipWith (fun x y => x + c * y) a b) b =
        dotL a b + c * dotL b b
  | [], [], _ => by simp [dotL]
  | [], _ :: _, h => by simp at h
  | _ :: _, [], h => by simp at h
  | x :: a, y :: b, h => by
    simp only [List.length_cons, Nat.succ.injEq] at h
    have ih := dotL_axpy_right c a b h
    simp only [dotL, List.zipWith_cons_cons, List.sum_cons] at ih ⊢
    rw [ih]
    ring

theorem dotL_axpy_self (c : ℚ) :
    ∀ (a b : List ℚ), a.length = b.length →
      dotL (List.zipWith (fun x y => x + c * y) a b)
           (List.zipWith (fun x y => x + c * y) a b) =
        dotL a a + 2 * c * dotL a b + c ^ 2 * dotL b b
  | [], [], _ => by simp [dotL]
  | [], _ :: _, h => by simp at h
  | _ :: _, [], h => by simp at h
  | x :: a, y :: b, h => by
    simp only [List.length_cons, Nat.succ.injEq] at h
    have ih := dotL_axpy_self c a b h
    simp only [dotL, List.zipWith_cons_cons, List.sum_cons] at ih ⊢
    rw [ih]
    ring

theorem length_zipWith_axpy (c : ℚ) (a b : List ℚ) (h : a.length = b.length) :
    (List.zipWith (fun x y => x + c * y) a b).length = a.length := by
  rw [List.length_zipWith, h, Nat.min_self]

theorem S_axpy_right (c : ℚ) (a b : List ℚ) (h : a.length = b.length) :
    S (List.zipWith (fun x y => x + c * y) a b) b = S a b + c * S b b := by
  simp only [S, length_zipWith_axpy c a b h, dotL_axpy_right c a b h,
    sum_zipWith_axpy c a b h, h]
  ring

theorem S_axpy_self (c : ℚ) (a b : List ℚ) (h : a.length = b.length) :
    S (List.zipWith (fun x y => x + c * y) a b)
      (List.zipWith (fun x y => x + c * y) a b) =
      S a a + 2 * c * S a b + c ^ 2 * S b b := by
  simp only [S, length_zipWith_axpy c a b h, dotL_axpy_self c a b h,
    sum_zipWith_axpy c a b h, h]
  ring

theorem dotL_self_nonneg : ∀ (a : List ℚ), 0 ≤ dotL a a
  | [] => by simp [dotL]
  | x :: a => by
    have ih := dotL_self_nonneg a
    simp only [dotL, List.zipWith_cons_cons, List.sum_cons] at *
    nlinarith [sq_nonneg x]

theorem sq_sum_le_length_mul_dotL :
    ∀ (a : List ℚ), a.sum ^ 2 ≤ (a.length : ℚ) * dotL a a
  | [] => by simp [dotL]
  | x :: a => by
    have ih := sq_sum_le_length_mul_dotL a
    have hd := dotL_self_nonneg a
    have hn : (0 : ℚ) ≤ (a.length : ℚ) := Nat.cast_nonneg _
    have hcons : dotL (x :: a) (x :: a) = x * x + dotL a a := by
      simp [dotL]
    rw [List.sum_cons, List.length_cons, hcons, Nat.cast_succ]
    rcases eq_or_lt_of_le hn with hn0 | hnpos
    · have hs2 : a.sum ^ 2 ≤ 0 := by
        calc a.sum ^ 2 ≤ (a.length : ℚ) * dotL a a := ih
        _ = 0 := by rw [← hn0]; ring
      have hs : a.sum = 0 :=
        pow_eq_zero_iff (two_ne_zero) |>.mp
          (le_antisymm hs2 (sq_nonneg a.sum))
      rw [hs, ← hn0]
      nlinarith [hd, sq_nonneg x]
    · nlinarith [sq_nonneg ((a.length : ℚ) * x - a.sum), ih, hd, hnpos,
        mul_nonneg (le_of_lt (by linarith : (0 : ℚ) < (a.length : ℚ) + 1))
          (by linarith : (0 : ℚ) ≤ (a.length : ℚ) * dotL a a - a.sum ^ 2)]

theorem S_self_nonneg (a : List ℚ) : 0 ≤ S a a := by
  have := sq_sum_le_length_mul_dotL a
  simp only [S]
  nlinarith

/-! ### Lemmas: peak normalization -/

theorem maxAbs_nonneg : ∀ (y : List ℚ), 0 ≤ maxAbs y
  | [] => le_refl 0
  | x :: y => by
    have ih := maxAbs_nonneg y
    simp only [maxAbs, List.map_cons, List.foldr_cons] at *
    exact le_max_of_le_right ih

theorem abs_le_maxAbs : ∀ (y : List ℚ), ∀ x ∈ y, |x| ≤ maxAbs y
  | [], x, hx => by cases hx
  | a :: y, x, hx => by
    rcases List.mem_cons.mp hx with h1 | h1
    · subst h1
      simp only [maxAbs, List.map_cons, List.foldr_cons]
      exact le_max_left _ _
    · have h2 := abs_le_maxAbs y x h1
      simp only [maxAbs, List.map_cons, List.foldr_cons] at h2 ⊢
      exact le_max_of_le_right h2

theorem eq_zero_of_maxAbs_eq_zero (y : List ℚ) (h : maxAbs y = 0) :
    ∀ x ∈ y, x = 0 := by
  intro x hx
  have h1 := abs_le_maxAbs y x hx
  rw [h] at h1
  exact abs_eq_zero.mp (le_antisymm h1 (abs_nonneg x))

theorem dotL_self_eq_zero_of_all_zero :
    ∀ (a : List ℚ), (∀ x ∈ a, x = 0) → dotL a a = 0
  | [], _ => by simp [dotL]
  | x :: a, h => by
    have hx : x = 0 := h x (List.mem_cons_self _ _)
    have ih := dotL_self_eq_zero_of_all_zero a
      (fun z hz => h z (List.mem_cons_of_mem _ hz))
    simp only [dotL, List.zipWith_cons_cons, List.sum_cons] at *
    rw [hx, ih]
    ring

theorem S_self_eq_zero_of_all_zero (a : List ℚ) (h : ∀ x ∈ a, x = 0) :
    S a a = 0 := by
  have hs : a.sum = 0 := List.sum_eq_zero h
  have hd : dotL a a = 0 := dotL_self_eq_zero_of_all_zero a h
  simp [S, hs, hd]

/-! ### SHA-256 sanity and bounds -/

set_option maxRecDepth 4000 in
/-- Sanity check of the SHA-256 embedding against the published digest of
    the empty message. -/
theorem sha256_empty_message :
    SHA256.sha256 [] =
      102987336249554097029535212322581322789799900648198034993379397001115665086549 := by
  decide

theorem add32_lt (a b : Nat) : SHA256.add32 a b < SHA256.M32 :=
  Nat.mod_lt _ (by decide)

theorem processBlock_lt (r : SHA256.Regs) (b : List Nat) :
    (SHA256.processBlock r b).a < SHA256.M32 ∧
    (SHA256.processBlock r b).b < SHA256.M32 ∧
    (SHA256.processBlock r b).c < SHA256.M32 ∧
    (SHA256.processBlock r b).d < SHA256.M32 ∧
    (SHA256.processBlock r b).e < SHA256.M32 ∧
    (SHA256.processBlock r b).f < SHA256.M32 ∧
    (SHA256.processBlock r b).g < SHA256.M32 ∧
    (SHA256.processBlock r b).h < SHA256.M32 :=
  ⟨add32_lt _ _, add32_lt _ _, add32_lt _ _, add32_lt _ _,
   add32_lt _ _, add32_lt _ _, add32_lt _ _, add32_lt _ _⟩

theorem foldl_processBlock_lt :
    ∀ (bs : List (List Nat)) (r : SHA256.Regs),
      (r.a < SHA256.M32 ∧ r.b < SHA256.M32 ∧ r.c < SHA256.M32 ∧
       r.d < SHA256.M32 ∧ r.e < SHA256.M32 ∧ r.f < SHA256.M32 ∧
       r.g < SHA256.M32 ∧ r.h < SHA256.M32) →
      ((bs.foldl SHA256.processBlock r).a < SHA256.M32 ∧
       (bs.foldl SHA256.processBlock r).b < SHA256.M32 ∧
       (bs.foldl SHA256.processBlock r).c < SHA256.M32 ∧
       (bs.foldl SHA256.processBlock r).d < SHA256.M32 ∧
       (bs.foldl SHA256.processBlock r).e < SHA256.M32 ∧
       (bs.foldl SHA256.processBlock r).f < SHA256.M32 ∧
       (bs.foldl SHA256.processBlock r).g < SHA256.M32 ∧
       (bs.foldl SHA256.processBlock r).h < SHA256.M32)
  | [], _, h => h
  | b :: bs, r, _ =>
    foldl_processBlock_lt bs (SHA256.processBlock r b) (processBlock_lt r b)

/-- The digest really is a 256-bit value. -/
theorem sha256_lt_2_256 (m : List Nat) : SHA256.sha256 m < 2 ^ 256 := by
  obtain ⟨h1, h2, h3, h4, h5, h6, h7, h8⟩ :=
    foldl_processBlock_lt
      (SHA256.toBlocks (SHA256.toWords (SHA256.padMessage m)))
      SHA256.initRegs (by decide)
  have he :
      SHA256.sha256 m =
        ((((((((SHA256.toBlocks (SHA256.toWords (SHA256.padMessage m))).foldl
            SHA256.processBlock SHA256.initRegs).a * SHA256.M32 +
          ((SHA256.toBlocks (SHA256.toWords (SHA256.padMessage m))).foldl
            SHA256.processBlock SHA256.initRegs).b) * SHA256.M32 +
          ((SHA256.toBlocks (SHA256.toWords (SHA256.padMessage m))).foldl
            SHA256.processBlock SHA256.initRegs).c) * SHA256.M32 +
          ((SHA256.toBlocks (SHA256.toWords (SHA256.padMessage m))).foldl
            SHA256.processBlock SHA256.initRegs).d) * SHA256.M32 +
          ((SHA256.toBlocks (SHA256.toWords (SHA256.padMessage m))).foldl
            SHA256.processBlock SHA256.initRegs).e) * SHA256.M32 +
          ((SHA256.toBlocks (SHA256.toWords (SHA256.padMessage m))).foldl
            SHA256.processBlock SHA256.initRegs).f) * SHA256.M32 +
          ((SHA256.toBlocks (SHA256.toWords (SHA256.padMessage m))).foldl
            SHA256.processBlock SHA256.initRegs).g) * SHA256.M32 +
          ((SHA256.toBlocks (SHA256.toWords (SHA256.padMessage m))).foldl
            SHA256.processBlock SHA256.initRegs).h := rfl
  rw [he]
  simp only [SHA256.M32] at h1 h2 h3 h4 h5 h6 h7 h8 ⊢
  have hp : (2 : Nat) ^ 256 =
      115792089237316195423570985008687907853269984665640564039457584007913129639936 := by
    norm_num
  rw [hp]
  omega

/-! ### Claim theorems -/

/-- Claim C1: pattern generation is deterministic — it is a pure function
    of the identity, the key material and the length, with no hidden state
    (the RNG is freshly seeded from the hash on every call), and the
    pattern-generation code in `embed_watermark` (embed.py lines 29–31)
    and in `detect_watermark` (extract.py lines 28–30) computes identical
    sample sequences for identical arguments, so the embedder and the
    detector regenerate byte-for-byte the same pattern. -/
theorem c1_pattern_deterministic (g : Rng) (id secret : List Nat) (n : Nat) :
    embedPattern g id secret n = detectPattern g id secret n := rfl

/-- Claim C4: the pattern generator hashes `identity + keyMaterial` with
    SHA-256 (a 256-bit value), reduces the digest, read as an unsigned
    integer, modulo `2^32` to a 32-bit seed, seeds the generator with it,
    and draws exactly as many standard-normal samples as requested, so the
    pattern length equals the signal length. -/
theorem c4_pattern_algorithm (g : Rng) (identity keyMaterial : List Nat)
    (n : Nat) (hg : ∀ s k, (g s k).length = k) :
    embedPattern g identity keyMaterial n =
      patternSpec g identity keyMaterial n ∧
    detectPattern g identity keyMaterial n =
      patternSpec g identity keyMaterial n ∧
    SHA256.sha256 (identity ++ keyMaterial) < 2 ^ 256 ∧
    seedOf (identity ++ keyMaterial) < 2 ^ 32 ∧
    (embedPattern g identity keyMaterial n).length = n :=
  ⟨rfl, rfl, sha256_lt_2_256 _, Nat.mod_lt _ (by norm_num), hg _ _⟩

/-- Witness for C4 at a concrete generator, identity, key material and
    length. -/
theorem c4_pattern_algorithm_witness :
    (∀ s k, (((fun _ k => List.replicate k (0 : ℚ)) : Rng) s k).length = k) ∧
    (embedPattern (fun _ k => List.replicate k (0 : ℚ)) [1] [2] 5 =
       patternSpec (fun _ k => List.replicate k (0 : ℚ)) [1] [2] 5 ∧
     detectPattern (fun _ k => List.replicate k (0 : ℚ)) [1] [2] 5 =
       patternSpec (fun _ k => List.replicate k (0 : ℚ)) [1] [2] 5 ∧
     SHA256.sha256 ([1] ++ [2]) < 2 ^ 256 ∧
     seedOf ([1] ++ [2]) < 2 ^ 32 ∧
     (embedPattern (fun _ k => List.replicate k (0 : ℚ)) [1] [2] 5).length =
       5) :=
  ⟨fun _ k => by simp,
   c4_pattern_algorithm (fun _ k => List.replicate k (0 : ℚ)) [1] [2] 5
     (fun _ k => by simp)⟩

/-- Claim C2 (code-bug evidence): on the zero-amplitude signal `[0, 0, 0]`
    normalization divides by `np.max(np.abs(y)) = 0`; the embedders return
    the NaN-filled output (modelled `none`) and the detectors silently
    return an unverified result with correlation `0`.  No
    `SilentSignalError` (or any error) exists anywhere in the code: the
    claimed fatal error is never raised. -/
theorem c2_silent_signal_nan_not_error (f : Corrcoef) (g : Rng)
    (vF : Verifier) (signF : List Nat → List Nat → List Nat → List Nat)
    (tobytes : List ℚ → List Nat) (id secret priv pub : List Nat) :
    embed_watermark g [0, 0, 0] id secret = none ∧
    embed_watermark_with_signature g signF tobytes [0, 0, 0] id priv =
      none ∧
    detect_watermark f g [0, 0, 0] id secret = (false, 0) ∧
    detect_watermark_with_signature f g vF [0, 0, 0] id pub none =
      ⟨false, 0, false⟩ := by
  have hM : maxAbs [(0 : ℚ), 0, 0] = 0 := by
    simp [maxAbs]
  refine ⟨?_, ?_, ?_, ?_⟩
  · simp [embed_watermark, hM]
  · simp [embed_watermark_with_signature, hM]
  · simp only [detect_watermark, hM, if_true, reduceIte]
    norm_num [threshold]
  · simp only [detect_watermark_with_signature, hM, reduceIte]
    norm_num

/-- Claim C7: signature verification returns `false` and never throws for
    every malformed public key (`loadPub` raises), undecodable base64
    signature (`b64dec` raises) or cryptographic mismatch (`rsaVerify`
    raises `InvalidSignature`): the translated function is total with
    result type `Bool`, it returns `true` exactly when all three
    primitives succeed on the message `artist_id + ":" + watermark_data`,
    and `verify_watermark_signature` delegates to
    `AudioKeyPair.verify_signature` unchanged. -/
theorem c7_verify_returns_false_never_throws
    (loadPub : List Nat → Except Unit (List Nat))
    (b64dec : List Nat → Except Unit (List Nat))
    (rsaVerify : List Nat → List Nat → List Nat → Except Unit Unit)
    (artist_id watermark_data sigText public_key_pem : List Nat) :
    verify_watermark_signature loadPub b64dec rsaVerify artist_id
        watermark_data sigText public_key_pem =
      verify_signature loadPub b64dec rsaVerify artist_id watermark_data
        sigText public_key_pem ∧
    (verify_signature loadPub b64dec rsaVerify artist_id watermark_data
        sigText public_key_pem = true ↔
      ∃ pk sigBytes, loadPub public_key_pem = .ok pk ∧
        b64dec sigText = .ok sigBytes ∧
        rsaVerify pk sigBytes (artist_id ++ colonByte ++ watermark_data) =
          .ok ()) := by
  refine ⟨rfl, ?_, ?_⟩
  · intro h
    rcases hl : loadPub public_key_pem with _ | pk
    · simp only [verify_signature, hl] at h
      exact absurd h (by decide)
    · rcases hb : b64dec sigText with _ | sb
      · simp only [verify_signature, hl, hb] at h
        exact absurd h (by decide)
      · rcases hr : rsaVerify pk sb (artist_id ++ colonByte ++ watermark_data)
          with _ | u
        · simp only [verify_signature, hl, hb, hr] at h
          exact absurd h (by decide)
        · exact ⟨pk, sb, rfl, rfl, by rw [hr]⟩
  · rintro ⟨pk, sb, hl, hb, hr⟩
    simp only [verify_signature, hl, hb, hr]

/-- Claim C10: `register_artist` never overwrites: when the artist is
    already present it returns `False` and the registry (hence the
    existing entry) is unchanged; when absent it appends the new entry and
    returns `True`. -/
theorem c10_register_artist_no_overwrite (reg : Registry)
    (artist_id public_key : List Nat)
    (artist_name contact_info description : Option (List Nat))
    (now : List Nat) :
    ((reg.lookup artist_id).isSome = true →
      register_artist reg artist_id public_key artist_name contact_info
        description now = (false, reg)) ∧
    (reg.lookup artist_id = none →
      register_artist reg artist_id public_key artist_name contact_info
        description now =
        (true, reg ++ [(artist_id,
          ⟨public_key, pyOr artist_name artist_id, pyOr contact_info [],
           pyOr description [], now, now⟩)])) := by
  constructor
  · intro h
    simp [register_artist, h]
  · intro h
    simp [register_artist, h]

/-- Witness for C10: a one-entry registry, one colliding registration
    (rejected, registry intact) and one fresh registration (appended). -/
theorem c10_register_artist_no_overwrite_witness :
    (([(([1] : List Nat), (⟨[2], [3], [4], [5], [6], [7]⟩ : ArtistInfo))] :
        Registry).lookup [1]).isSome = true ∧
    register_artist [([1], ⟨[2], [3], [4], [5], [6], [7]⟩)] [1] [9] none none
        none [8] =
      (false, [([1], ⟨[2], [3], [4], [5], [6], [7]⟩)]) ∧
    ([(([1] : List Nat), (⟨[2], [3], [4], [5], [6], [7]⟩ : ArtistInfo))] :
        Registry).lookup [0] = none ∧
    register_artist [([1], ⟨[2], [3], [4], [5], [6], [7]⟩)] [0] [9] none none
        none [8] =
      (true, [([1], ⟨[2], [3], [4], [5], [6], [7]⟩)] ++
        [([0], ⟨[9], pyOr none [0], pyOr none [], pyOr none [], [8], [8]⟩)]) :=
  ⟨by decide,
   (c10_register_artist_no_overwrite [([1], ⟨[2], [3], [4], [5], [6], [7]⟩)]
     [1] [9] none none none [8]).1 (by decide),
   by decide,
   (c10_register_artist_no_overwrite [([1], ⟨[2], [3], [4], [5], [6], [7]⟩)]
     [0] [9] none none none [8]).2 (by decide)⟩

/-- Claim C6: in signed detection the signature is verified against the
    fingerprint stored in the record, never one recomputed from the
    candidate samples: `signature_valid` equals the verdict of the verifier on
    `record.audio_hash` and `record.signature`, and is therefore identical
    for any two candidate signals (in particular, tampered audio with an
    untouched record and a key under which the record verifies still
    reports `signature_valid = true`). -/
theorem c6_signature_against_stored_fingerprint (f : Corrcoef) (g : Rng)
    (vF : Verifier) (y y2 : List ℚ) (id pub : List Nat)
    (r : ProvenanceRecord) (hk : r.watermark_type = cryptoKind) :
    (detect_watermark_with_signature f g vF y id pub
        (some r)).signature_valid = vF id r.audio_hash r.signature pub ∧
    (detect_watermark_with_signature f g vF y id pub
        (some r)).signature_valid =
      (detect_watermark_with_signature f g vF y2 id pub
        (some r)).signature_valid := by
  constructor <;> simp [detect_watermark_with_signature, hk]

/-- Witness for C6: a record that verifies under a concrete verifier,
    checked against two different candidate signals. -/
theorem c6_signature_against_stored_fingerprint_witness :
    (⟨[1], [2], [3], cryptoKind⟩ : ProvenanceRecord).watermark_type =
      cryptoKind ∧
    ((detect_watermark_with_signature (fun _ _ => none) (fun _ _ => [])
        (fun _ _ _ _ => true) [1] [4] [5]
        (some ⟨[1], [2], [3], cryptoKind⟩)).signature_valid =
      (fun _ _ _ _ => true) [4] ([3] : List Nat) ([2] : List Nat) [5] ∧
    (detect_watermark_with_signature (fun _ _ => none) (fun _ _ => [])
        (fun _ _ _ _ => true) [1] [4] [5]
        (some ⟨[1], [2], [3], cryptoKind⟩)).signature_valid =
      (detect_watermark_with_signature (fun _ _ => none) (fun _ _ => [])
        (fun _ _ _ _ => true) [5, 5] [4] [5]
        (some ⟨[1], [2], [3], cryptoKind⟩)).signature_valid) :=
  ⟨rfl,
   c6_signature_against_stored_fingerprint (fun _ _ => none) (fun _ _ => [])
     (fun _ _ _ _ => true) [1] [5, 5] [4] [5] ⟨[1], [2], [3], cryptoKind⟩
     rfl⟩

/-- Claim C5 (code-bug evidence): when no provenance record is located,
    signed detection does NOT report a distinct "no record" outcome — it
    silently proceeds with fallback correlation-only detection, returning
    `signature_valid = false`, an output identical to that produced for a
    located record that fails verification. -/
theorem c5_missing_record_silently_falls_back (f : Corrcoef) (g : Rng)
    (vF : Verifier) (y : List ℚ) (id pub : List Nat) (r : ProvenanceRecord)
    (hk : r.watermark_type = cryptoKind)
    (hv : vF id r.audio_hash r.signature pub = false) :
    (detect_watermark_with_signature f g vF y id pub
        none).signature_valid = false ∧
    detect_watermark_with_signature f g vF y id pub none =
      detect_watermark_with_signature f g vF y id pub (some r) := by
  constructor
  · simp [detect_watermark_with_signature]
  · simp [detect_watermark_with_signature, hk, hv]

/-- Witness for C5 at a concrete verifier, record and candidate. -/
theorem c5_missing_record_silently_falls_back_witness :
    (⟨[1], [2], [3], cryptoKind⟩ : ProvenanceRecord).watermark_type =
      cryptoKind ∧
    (fun _ _ _ _ => false : Verifier) [4] ([3] : List Nat)
      ([2] : List Nat) [5] = false ∧
    ((detect_watermark_with_signature (fun _ _ => none) (fun _ _ => [])
        (fun _ _ _ _ => false) [1] [4] [5] none).signature_valid = false ∧
    detect_watermark_with_signature (fun _ _ => none) (fun _ _ => [])
        (fun _ _ _ _ => false) [1] [4] [5] none =
      detect_watermark_with_signature (fun _ _ => none) (fun _ _ => [])
        (fun _ _ _ _ => false) [1] [4] [5]
        (some ⟨[1], [2], [3], cryptoKind⟩)) :=
  ⟨rfl, rfl,
   c5_missing_record_silently_falls_back (fun _ _ => none) (fun _ _ => [])
     (fun _ _ _ _ => false) [1] [4] [5] ⟨[1], [2], [3], cryptoKind⟩ rfl rfl⟩

/-- Claim C8: signed detection returns exactly
    `verified = signatureValid AND (correlation > 0.001)`,
    `score = (correlation + (1 if signatureValid else 0)) / 2`, and
    `signature_valid = signatureValid`, where the correlation is taken as
    `0` when `np.corrcoef` is NaN; the pattern seed material is
    `identity + record.signature` when `signatureValid` and the fixed
    fallback constant `identity + "fallback"` otherwise. -/
theorem c8_signed_verdict_and_score (f : Corrcoef) (g : Rng) (vF : Verifier)
    (y : List ℚ) (id pub : List Nat) (rec? : Option ProvenanceRecord) :
    detect_watermark_with_signature f g vF y id pub rec? =
      ⟨svSpec vF id pub rec? &&
         decide (corrSpec f g vF y id pub rec? > 1 / 1000),
       (corrSpec f g vF y id pub rec? +
         (if svSpec vF id pub rec? then 1 else 0)) / 2,
       svSpec vF id pub rec?⟩ ∧
    (svSpec vF id pub rec? = false →
      seedSpec vF id pub rec? = seedOf (id ++ fallbackBytes)) ∧
    (∀ r, rec? = some r → svSpec vF id pub rec? = true →
      seedSpec vF id pub rec? = seedOf (id ++ r.signature)) ∧
    (maxAbs y ≠ 0 →
      f (normalizeQ y) (g (seedSpec vF id pub rec?) y.length) = none →
      corrSpec f g vF y id pub rec? = 0) := by
  refine ⟨?_, ?_, ?_, ?_⟩
  · rcases rec? with _ | r
    · simp [detect_watermark_with_signature, svSpec, seedSpec, corrSpec,
        threshold]
    · by_cases hk : r.watermark_type = cryptoKind
      · rcases hv : vF id r.audio_hash r.signature pub
        · simp [detect_watermark_with_signature, svSpec, seedSpec, corrSpec,
            threshold, hk, hv]
        · simp [detect_watermark_with_signature, svSpec, seedSpec, corrSpec,
            threshold, hk, hv]
      · simp [detect_watermark_with_signature, svSpec, seedSpec, corrSpec,
          threshold, hk]
  · intro h
    rcases rec? with _ | r
    · rfl
    · simp [seedSpec, h]
  · intro r hr hsv
    subst hr
    simp [seedSpec, hsv]
  · intro hM hnone
    simp [corrSpec, hM, hnone]

/-- Witness for C8 at a concrete verifier (rejecting), record and empty
    candidate. -/
theorem c8_signed_verdict_and_score_witness :
    detect_watermark_with_signature (fun _ _ => none) (fun _ _ => [])
        (fun _ _ _ _ => false) [] [4] [5]
        (some ⟨[1], [2], [3], cryptoKind⟩) =
      ⟨svSpec (fun _ _ _ _ => false) [4] [5]
          (some ⟨[1], [2], [3], cryptoKind⟩) &&
         decide (corrSpec (fun _ _ => none) (fun _ _ => [])
            (fun _ _ _ _ => false) [] [4] [5]
            (some ⟨[1], [2], [3], cryptoKind⟩) > 1 / 1000),
       (corrSpec (fun _ _ => none) (fun _ _ => []) (fun _ _ _ _ => false)
          [] [4] [5] (some ⟨[1], [2], [3], cryptoKind⟩) +
         (if svSpec (fun _ _ _ _ => false) [4] [5]
             (some ⟨[1], [2], [3], cryptoKind⟩) then 1 else 0)) / 2,
       svSpec (fun _ _ _ _ => false) [4] [5]
         (some ⟨[1], [2], [3], cryptoKind⟩)⟩ ∧
    svSpec (fun _ _ _ _ => false) [4] [5]
      (some ⟨[1], [2], [3], cryptoKind⟩) = false ∧
    seedSpec (fun _ _ _ _ => false) [4] [5]
      (some ⟨[1], [2], [3], cryptoKind⟩) = seedOf ([4] ++ fallbackBytes) :=
  ⟨(c8_signed_verdict_and_score (fun _ _ => none) (fun _ _ => [])
      (fun _ _ _ _ => false) [] [4] [5]
      (some ⟨[1], [2], [3], cryptoKind⟩)).1,
   by decide,
   (c8_signed_verdict_and_score (fun _ _ => none) (fun _ _ => [])
      (fun _ _ _ _ => false) [] [4] [5]
      (some ⟨[1], [2], [3], cryptoKind⟩)).2.1 (by decide)⟩

/-- Claim C9: signed embedding, in data-flow order: normalize the signal,
    fingerprint = SHA-256 hex digest of the raw bytes of the NORMALIZED
    samples, signature = sign(identity, fingerprint, privateKey), pattern
    seed material = identity + signature, mix at gain `alpha = 0.001`, and
    emit the record containing exactly the identity, the signature, the
    fingerprint and the kind "cryptographic". -/
theorem c9_signed_embed_structure (g : Rng)
    (signF : List Nat → List Nat → List Nat → List Nat)
    (tobytes : List ℚ → List Nat) (y : List ℚ) (id priv : List Nat)
    (hy : maxAbs y ≠ 0) :
    embed_watermark_with_signature g signF tobytes y id priv =
      some (List.zipWith (fun a b => a + alpha * b) (normalizeQ y)
              (g (seedOf (id ++
                   signF id (hexBytes (SHA256.sha256 (tobytes (normalizeQ y))))
                     priv)) y.length),
            ⟨id,
             signF id (hexBytes (SHA256.sha256 (tobytes (normalizeQ y)))) priv,
             hexBytes (SHA256.sha256 (tobytes (normalizeQ y))),
             cryptoKind⟩) := by
  simp only [embed_watermark_with_signature, if_neg hy]

/-- Witness for C9 at a concrete generator, signer, serializer and a
    non-silent two-sample signal. -/
theorem c9_signed_embed_structure_witness :
    maxAbs [(1 : ℚ), -1] ≠ 0 ∧
    embed_watermark_with_signature (fun _ n => List.replicate n (0 : ℚ))
        (fun _ _ _ => []) (fun _ => []) [1, -1] [4] [6] =
      some (List.zipWith (fun a b => a + alpha * b) (normalizeQ [1, -1])
              ((fun _ n => List.replicate n (0 : ℚ))
                (seedOf ([4] ++
                   (fun _ _ _ => ([] : List Nat)) [4]
                     (hexBytes (SHA256.sha256
                       ((fun _ => ([] : List Nat)) (normalizeQ [1, -1]))))
                     [6])) (List.length [(1 : ℚ), -1])),
            ⟨[4],
             (fun _ _ _ => ([] : List Nat)) [4]
               (hexBytes (SHA256.sha256
                 ((fun _ => ([] : List Nat)) (normalizeQ [1, -1])))) [6],
             hexBytes (SHA256.sha256
               ((fun _ => ([] : List Nat)) (normalizeQ [1, -1]))),
             cryptoKind⟩) :=
  ⟨by decide,
   c9_signed_embed_structure (fun _ n => List.replicate n (0 : ℚ))
     (fun _ _ _ => []) (fun _ => []) [1, -1] [4] [6] (by decide)⟩

/-- Claim C3, counterexample: the unsigned round trip
    `detect(embed(S, id, secret), id, secret).verified = true` is NOT true
    for every non-silent signal.  The statement below is the claim with
    the generator and the correlation oracle quantified and pinned by
    their faithfulness conditions; it is refuted at the concrete
    non-silent signal `[-1, 1]` with a generator whose pattern `[1, -1]`
    is anti-correlated with the signal: the watermarked signal correlates
    at `-1` and detection returns `false`. -/
theorem c3_roundtrip_counterexample :
    ¬ (∀ (f : Corrcoef) (g : Rng) (y : List ℚ) (id secret : List Nat)
        (m : List ℚ),
        (∀ s n, (g s n).length = n) →
        maxAbs y ≠ 0 →
        embed_watermark g y id secret = some m →
        CorrcoefAt f (normalizeQ m) (detectPattern g id secret m.length) →
        (detect_watermark f g m id secret).1 = true) := by
  intro h
  have hc := h (fun _ _ => some (-1))
    (fun _ n => (List.range n).map (fun i => if i % 2 = 0 then (1 : ℚ) else -1))
    [-1, 1] [] []
    (embedSome
      (fun _ n => (List.range n).map (fun i => if i % 2 = 0 then (1 : ℚ) else -1))
      [-1, 1] [] [])
    (fun _ n => by simp)
    (by norm_num [maxAbs, max_def, abs])
    (by norm_num [embed_watermark, embedSome, embedPattern, normalizeQ, maxAbs,
      alpha, List.range_succ, max_def, abs])
    ⟨fun habs => absurd habs (by norm_num [embedSome, embedPattern,
        detectPattern, normalizeQ, maxAbs, S, dotL, alpha, List.range_succ,
        max_def, abs]),
     fun _ => ⟨-1, rfl,
       by norm_num [embedSome, embedPattern, detectPattern, normalizeQ, maxAbs,
         S, dotL, alpha, List.range_succ, max_def, abs],
       by norm_num [embedSome, embedPattern, detectPattern, normalizeQ, maxAbs,
         S, dotL, alpha, List.range_succ, max_def, abs]⟩⟩
  exact absurd hc
    (by norm_num [detect_watermark, embedSome, embedPattern, detectPattern,
      normalizeQ, maxAbs, S, dotL, alpha, threshold, List.range_succ, max_def,
      abs])

set_option maxHeartbeats 1000000 in
/-- Claim C3, amended: the unsigned round trip holds for every non-silent
    signal whose normalized form is non-negatively correlated with the
    pattern (`0 ≤ S yn p`) and whose scaled variance is strictly dominated
    by that of the pattern (`S yn yn < S p p * (1 - alpha^2)`); then the
    Pearson correlation of the watermarked signal with the regenerated pattern
    strictly exceeds the `0.001` threshold and detection verifies.  (The
    counterexample shows the restriction cannot be dropped: an
    anti-correlated signal defeats detection.) -/
theorem c3_roundtrip_amended (f : Corrcoef) (g : Rng) (y : List ℚ)
    (id secret : List Nat)
    (hg : ∀ s n, (g s n).length = n)
    (hy : maxAbs y ≠ 0)
    (hf : CorrcoefAt f (normalizeQ (embedSome g y id secret))
            (detectPattern g id secret (embedSome g y id secret).length))
    (hc : 0 ≤ S (normalizeQ y) (embedPattern g id secret y.length))
    (hv : S (normalizeQ y) (normalizeQ y) <
            S (embedPattern g id secret y.length)
                (embedPattern g id secret y.length) * (1 - alpha ^ 2)) :
    embed_watermark g y id secret = some (embedSome g y id secret) ∧
    (detect_watermark f g (embedSome g y id secret) id secret).1 = true := by
  have hemb : embed_watermark g y id secret = some (embedSome g y id secret) := by
    simp [embed_watermark, hy]
  refine ⟨hemb, ?_⟩
  set yn := normalizeQ y with hyn
  set p := embedPattern g id secret y.length with hp
  set m := embedSome g y id secret with hm
  have hlyn : yn.length = y.length := by simp [hyn, normalizeQ]
  have hlp : p.length = y.length := hg _ _
  have hlen : yn.length = p.length := by rw [hlyn, hlp]
  have hm_def : m = List.zipWith (fun a b => a + alpha * b) yn p := rfl
  have hm_len : m.length = y.length := by
    rw [hm_def, length_zipWith_axpy alpha yn p hlen, hlyn]
  have hY : 0 ≤ S yn yn := S_self_nonneg yn
  have h1 : (0 : ℚ) < 1 - alpha ^ 2 := by norm_num [alpha]
  have halpha : (0 : ℚ) < alpha := by norm_num [alpha]
  have hP : 0 < S p p := by nlinarith [hv, hY, h1]
  have hSmp : S m p = S yn p + alpha * S p p := by
    rw [hm_def]
    exact S_axpy_right alpha yn p hlen
  have hSmm : S m m = S yn yn + 2 * alpha * S yn p + alpha ^ 2 * S p p := by
    rw [hm_def]
    exact S_axpy_self alpha yn p hlen
  have hSmp_pos : 0 < S m p := by
    rw [hSmp]
    nlinarith [hc, mul_pos halpha hP]
  have hSmm_pos : 0 < S m m := by
    rw [hSmm]
    nlinarith [hY, mul_nonneg (by linarith : (0 : ℚ) ≤ 2 * alpha) hc,
      mul_pos (pow_pos halpha 2) hP]
  have hMm0 : maxAbs m ≠ 0 := by
    intro h0
    have hz := S_self_eq_zero_of_all_zero m (eq_zero_of_maxAbs_eq_zero m h0)
    rw [hz] at hSmm_pos
    exact lt_irrefl 0 hSmm_pos
  have hMpos : 0 < maxAbs m := lt_of_le_of_ne (maxAbs_nonneg m) (Ne.symm hMm0)
  have hrinv : 0 < (maxAbs m)⁻¹ := inv_pos.mpr hMpos
  have hmn : normalizeQ m = m.map (fun x => x * (maxAbs m)⁻¹) := by
    simp [normalizeQ, div_eq_mul_inv]
  have hSnp : S (normalizeQ m) p = S m p * (maxAbs m)⁻¹ := by
    rw [hmn, S_map_mul_left]
  have hSnn : S (normalizeQ m) (normalizeQ m) =
      S m m * (maxAbs m)⁻¹ * (maxAbs m)⁻¹ := by
    rw [hmn, S_map_mul_both]
  have hpat : detectPattern g id secret m.length = p := by
    rw [hm_len]
    rfl
  rw [hpat] at hf
  have hD : S (normalizeQ m) (normalizeQ m) * S p p ≠ 0 := by
    rw [hSnn]
    exact ne_of_gt (mul_pos (mul_pos (mul_pos hSmm_pos hrinv) hrinv) hP)
  obtain ⟨c, hfc, hsign, hsq⟩ := hf.2 hD
  have hSnp_pos : 0 < S (normalizeQ m) p := by
    rw [hSnp]
    exact mul_pos hSmp_pos hrinv
  have hc0 : 0 ≤ c := by nlinarith [hsign, hSnp_pos]
  have hgap : 0 < S p p * (1 - alpha ^ 2) - S yn yn := by linarith
  have ident :
      (S yn p + alpha * S p p) ^ 2 -
        alpha ^ 2 *
          ((S yn yn + 2 * alpha * S yn p + alpha ^ 2 * S p p) * S p p) =
      S yn p ^ 2 + 2 * alpha * S yn p * (S p p * (1 - alpha ^ 2)) +
        alpha ^ 2 * S p p * (S p p * (1 - alpha ^ 2) - S yn yn) := by
    ring
  have t2 : 0 ≤ 2 * alpha * S yn p * (S p p * (1 - alpha ^ 2)) :=
    mul_nonneg (mul_nonneg (by linarith : (0 : ℚ) ≤ 2 * alpha) hc)
      (mul_nonneg hP.le h1.le)
  have t3 : 0 < alpha ^ 2 * S p p * (S p p * (1 - alpha ^ 2) - S yn yn) :=
    mul_pos (mul_pos (pow_pos halpha 2) hP) hgap
  have key : alpha ^ 2 * (S m m * S p p) < (S m p) ^ 2 := by
    rw [hSmp, hSmm]
    nlinarith [ident, t2, t3, sq_nonneg (S yn p)]
  have hr2 : (0 : ℚ) < (maxAbs m)⁻¹ ^ 2 := pow_pos hrinv 2
  have hsq2 : c ^ 2 * (S m m * S p p) * (maxAbs m)⁻¹ ^ 2 =
      (S m p) ^ 2 * (maxAbs m)⁻¹ ^ 2 := by
    have hq := hsq
    rw [hSnn, hSnp] at hq
    linear_combination hq
  have hsq3 : c ^ 2 * (S m m * S p p) = (S m p) ^ 2 :=
    mul_right_cancel₀ (ne_of_gt hr2) hsq2
  have hcc : alpha ^ 2 < c ^ 2 := by
    have hMM : 0 < S m m * S p p := mul_pos hSmm_pos hP
    rw [← hsq3] at key
    exact lt_of_mul_lt_mul_right key hMM.le
  have hcgt : threshold < c := by
    have hta : threshold = alpha := rfl
    rw [hta]
    exact lt_of_pow_lt_pow_left₀ 2 hc0 hcc
  have hres : detect_watermark f g m id secret = (decide (c > threshold), c) := by
    have hcorr :
        (if maxAbs m = 0 then (0 : ℚ)
         else (f (normalizeQ m) (detectPattern g id secret m.length)).getD 0) =
          c := by
      rw [if_neg hMm0, hpat, hfc]
      rfl
    simp only [detect_watermark, hcorr]
  rw [hres]
  simp only [decide_eq_true_iff]
  exact hcgt

/-- Witness for the amended C3 at a concrete non-silent signal `[1, -1]`,
    a generator yielding the positively-correlated pattern `[2, -2]`, and
    the correlation oracle returning the exact Pearson value `1`. -/
theorem c3_roundtrip_amended_witness :
    (∀ s n,
      (((fun _ n =>
          (List.range n).map (fun i => if i % 2 = 0 then (2 : ℚ) else -2)) :
            Rng) s n).length = n) ∧
    maxAbs [(1 : ℚ), -1] ≠ 0 ∧
    0 ≤ S (normalizeQ [(1 : ℚ), -1])
        (embedPattern
          (fun _ n => (List.range n).map (fun i => if i % 2 = 0 then (2 : ℚ) else -2))
          [] [] (List.length [(1 : ℚ), -1])) ∧
    S (normalizeQ [(1 : ℚ), -1]) (normalizeQ [(1 : ℚ), -1]) <
      S (embedPattern
           (fun _ n => (List.range n).map (fun i => if i % 2 = 0 then (2 : ℚ) else -2))
           [] [] (List.length [(1 : ℚ), -1]))
        (embedPattern
           (fun _ n => (List.range n).map (fun i => if i % 2 = 0 then (2 : ℚ) else -2))
           [] [] (List.length [(1 : ℚ), -1])) * (1 - alpha ^ 2) ∧
    (embed_watermark
        (fun _ n => (List.range n).map (fun i => if i % 2 = 0 then (2 : ℚ) else -2))
        [1, -1] [] [] =
      some (embedSome
        (fun _ n => (List.range n).map (fun i => if i % 2 = 0 then (2 : ℚ) else -2))
        [1, -1] [] []) ∧
     (detect_watermark (fun _ _ => some 1)
        (fun _ n => (List.range n).map (fun i => if i % 2 = 0 then (2 : ℚ) else -2))
        (embedSome
          (fun _ n => (List.range n).map (fun i => if i % 2 = 0 then (2 : ℚ) else -2))
          [1, -1] [] [])
        [] []).1 = true) :=
  ⟨fun _ n => by simp,
   by norm_num [maxAbs, max_def, abs],
   by norm_num [embedPattern, normalizeQ, maxAbs, S, dotL, List.range_succ,
     max_def, abs],
   by norm_num [embedPattern, normalizeQ, maxAbs, S, dotL, alpha,
     List.range_succ, max_def, abs],
   c3_roundtrip_amended (fun _ _ => some 1)
     (fun _ n => (List.range n).map (fun i => if i % 2 = 0 then (2 : ℚ) else -2))
     [1, -1] [] [] (fun _ n => by simp)
     (by norm_num [maxAbs, max_def, abs])
     ⟨fun habs => absurd habs (by norm_num [embedSome, embedPattern,
        detectPattern, normalizeQ, maxAbs, S, dotL, alpha, List.range_succ,
        max_def, abs]),
      fun _ => ⟨1, rfl,
        by norm_num [embedSome, embedPattern, detectPattern, normalizeQ,
          maxAbs, S, dotL, alpha, List.range_succ, max_def, abs],
        by norm_num [embedSome, embedPattern, detectPattern, normalizeQ,
          maxAbs, S, dotL, alpha, List.range_succ, max_def, abs]⟩⟩
     (by norm_num [embedPattern, normalizeQ, maxAbs, S, dotL, List.range_succ,
       max_def, abs])
     (by norm_num [embedPattern, normalizeQ, maxAbs, S, dotL, alpha,
       List.range_succ, max_def, abs])⟩

end AudioAuth
